import Mathlib

/-!
# mocky-mcp: the three tool handlers of `mcp/cmd/main.go`

A shallow embedding of `helloHandler`, `listPrototypesHandler`,
`getPrototypeDetailHandler` and `resolvePrototypeIDByName`.

* Go strings are Lean strings (every string the handlers see was produced by a
  JSON decoder, hence is valid UTF-8).
* The network is explicit state: `http.Get` followed by `io.ReadAll` is one
  step of the environment, and every issued request is appended to a trace.
* Library code that is not part of the repository is a field of `Env`
  (JSON codec, `strconv.Quote`, the non-ASCII part of the Unicode case table).
-/

namespace Mocky

/-! ## Go library functions used by the handlers -/

/-- Go `unicode.IsSpace`: the Latin-1 switch, then the `White_Space` ranges above Latin-1. -/
def isSpace (r : Char) : Bool :=
  let n := r.toNat
  if n ≤ 0xFF then
    n = 0x09 || n = 0x0A || n = 0x0B || n = 0x0C || n = 0x0D || n = 0x20 || n = 0x85 || n = 0xA0
  else
    n = 0x1680 || (0x2000 ≤ n && n ≤ 0x200A) || n = 0x2028 || n = 0x2029 || n = 0x202F
      || n = 0x205F || n = 0x3000

/-- Go `strings.TrimSpace`: drop the leading and the trailing white space. -/
def TrimSpace (s : String) : String :=
  ⟨((s.data.dropWhile isSpace).reverse.dropWhile isSpace).reverse⟩

/-- Go `unicode.ToLower`: ASCII is handled inline, every other rune goes through the
case table `tbl` of the Unicode package. -/
def toLowerRune (tbl : Char → Char) (r : Char) : Char :=
  if r.toNat ≤ 0x7F then
    (if 'A'.toNat ≤ r.toNat ∧ r.toNat ≤ 'Z'.toNat then Char.ofNat (r.toNat + 32) else r)
  else tbl r

/-- Go `strings.ToLower`: map every rune through `unicode.ToLower`. -/
def ToLower (tbl : Char → Char) (s : String) : String :=
  ⟨s.data.map (toLowerRune tbl)⟩

/-- The verb `%d` of package `fmt` on an `int`. -/
def fmtInt (n : Int) : String := toString n

/-- The elements of a slice as `fmt` prints them: one blank between neighbours. -/
def joinBlank : List String → String
  | [] => ""
  | [x] => x
  | x :: y :: rest => x ++ " " ++ joinBlank (y :: rest)

/-- The verb `%v` of package `fmt` on a `[]string`: the elements separated by one blank,
between square brackets. -/
def fmtStrings (xs : List String) : String := "[" ++ joinBlank xs ++ "]"

/-- A decoded JSON value, the content of a Go `any`. -/
inductive Json where
  | null
  | bool (b : Bool)
  | num (literal : String)
  | str (s : String)
  | arr (xs : List Json)
  | obj (kvs : List (String × Json))

deriving instance DecidableEq for Except

/-! ## Data model -/

structure mockyRequest where
  Method : String
  URLPath : String
deriving DecidableEq, Repr

structure mockyItem where
  ID : String
  Name : String
  Request : mockyRequest
deriving DecidableEq, Repr

structure mockyResponse where
  Results : List mockyItem
deriving DecidableEq, Repr

/-- The local type `outItem` of `listPrototypesHandler`. -/
structure outItem where
  ID : String
  Name : String
  Method : String
  URLPath : String
deriving DecidableEq, Repr

structure mockyRequestDetail where
  BodySchema : Json
  Delay : Int
  Headers : List (String × String)
  Method : String
  PathParams : List (String × Json)
  URLPath : String

/-- The anonymous struct of the field `Body` of `detailResponse`. -/
structure detailResponseBody where
  Data : List (String × Json)
  StatusCode : Int
  Success : Bool

structure detailResponse where
  Body : detailResponseBody

structure detailItem where
  CreatedAt : String
  ID : String
  Name : String
  Request : mockyRequestDetail
  Response : detailResponse
  UpdatedAt : String

structure detailEnvelope where
  Data : detailItem

/-- The local type `detailOut` of `getPrototypeDetailHandler`. -/
structure detailOut where
  ID : String
  Name : String
  Method : String
  URLPath : String
  Delay : Int
  ResponseStatus : Int
  ResponseSuccess : Bool
  ResponseData : List (String × Json)
  CreatedAt : String
  UpdatedAt : String
  AdditionalHeaders : List (String × String)

/-! ## The tool protocol library (`mcp-go`) -/

/-- The arguments of a tool call: the map `Arguments`, as an association list that is read
by its first entry for a key. -/
structure CallToolRequest where
  arguments : List (String × Json)

/-- A tool result: one text content and the error flag. -/
structure CallToolResult where
  Text : String
  IsError : Bool
deriving DecidableEq, Repr

/-- Go `mcp.NewToolResultError`. -/
def NewToolResultError (text : String) : CallToolResult := { Text := text, IsError := true }

/-- Go `mcp.NewToolResultText`. -/
def NewToolResultText (text : String) : CallToolResult := { Text := text, IsError := false }

/-- The pair `(*mcp.CallToolResult, error)` a handler returns: a pointer that may be nil and
an error that may be nil (the text of `err.Error()` otherwise). -/
structure HandlerReturn where
  result : Option CallToolResult
  err : Option String
deriving DecidableEq, Repr

/-- Go `request.GetString(key, def)`: the argument when present and a string, else `def`. -/
def GetString (request : CallToolRequest) (key : String) (dflt : String) : String :=
  match request.arguments.lookup key with
  | some (Json.str s) => s
  | _ => dflt

/-- Go `request.RequireString(key)`; `quote` is `strconv.Quote`, the verb `%q`. -/
def RequireString (quote : String → String) (request : CallToolRequest) (key : String) :
    Except String String :=
  match request.arguments.lookup key with
  | some (Json.str s) => .ok s
  | some _ => .error ("argument " ++ quote key ++ " is not a string")
  | none => .error ("required argument " ++ quote key ++ " not found")

/-! ## The environment: network and codecs -/

/-- What `http.Get(url)` followed by `io.ReadAll(resp.Body)` yields. -/
inductive HttpOutcome where
  /-- `http.Get` returned an error. -/
  | getFailed (msg : String)
  /-- A response arrived, `io.ReadAll` returned an error. -/
  | readFailed (status : Int) (msg : String)
  /-- A response with its status code and its whole body. -/
  | response (status : Int) (body : String)
deriving DecidableEq, Repr

/-- Everything the handlers call that lives outside the repository. `σ` is the state of the
remote services. -/
structure Env (σ : Type) where
  /-- One GET request against the network in state `σ`. -/
  httpGet : σ → String → HttpOutcome × σ
  /-- The lower-case mapping of the Unicode tables for runes above ASCII. -/
  lowerTable : Char → Char
  /-- Go `strconv.Quote`, the verb `%q`. -/
  quote : String → String
  /-- Go `json.Unmarshal` into a `mockyResponse`; the error is the text of `err.Error()`. -/
  unmarshalListing : String → Except String mockyResponse
  /-- Go `json.Unmarshal` into a `detailEnvelope`. -/
  unmarshalDetail : String → Except String detailEnvelope
  /-- Go `json.MarshalIndent` of a `[]outItem` (its error is discarded by the caller). -/
  marshalSummaries : List outItem → String
  /-- Go `json.MarshalIndent` of a `detailOut`. -/
  marshalDetail : detailOut → String

/-- The network state together with the URLs requested so far, oldest first. -/
structure World (σ : Type) where
  net : σ
  trace : List String
deriving DecidableEq

/-- Issue one GET request: the URL is recorded, the network moves on. -/
def fetch {σ : Type} (env : Env σ) (url : String) (w : World σ) : HttpOutcome × World σ :=
  let r := env.httpGet w.net url
  (r.1, { net := r.2, trace := w.trace ++ [url] })

/-! ## The handlers -/

/-- The handler `helloHandler`. -/
def helloHandler (quote : String → String) (request : CallToolRequest) : HandlerReturn :=
  match RequireString quote request "name" with
  | .error e => ⟨some (NewToolResultError e), none⟩
  | .ok name => ⟨some (NewToolResultText ("¡Hola, " ++ name ++ "! 👋")), none⟩

/-- The URL constant of `listPrototypesHandler`. -/
def listURL : String := "https://development.jalocompany.tech/mocky/v1/prototypes"

/-- The constant `base` of `getPrototypeDetailHandler`, also the constant `url` of
`resolvePrototypeIDByName`. -/
def base : String := "http://209.126.13.207:8010/v1/prototypes"

/-- The projection loop of `listPrototypesHandler`: one `append` per item of the listing. -/
def projectSummaries (results : List mockyItem) : List outItem :=
  results.foldl
    (fun out it =>
      out ++ [{ ID := it.ID, Name := it.Name, Method := it.Request.Method,
                URLPath := it.Request.URLPath }])
    []

/-- The handler `listPrototypesHandler`. -/
def listPrototypesHandler {σ : Type} (env : Env σ) (_request : CallToolRequest)
    (w : World σ) : HandlerReturn × World σ :=
  match fetch env listURL w with
  | (.getFailed e, w1) =>
      (⟨some (NewToolResultError ("Error calling prototypes API: " ++ e)), none⟩, w1)
  | (.readFailed _ e, w1) =>
      (⟨some (NewToolResultError ("Error reading prototypes response: " ++ e)), none⟩, w1)
  | (.response status body, w1) =>
      if status < 200 ∨ status > 299 then
        (⟨some (NewToolResultError
            ("Non-OK status " ++ fmtInt status ++ " from prototypes API: " ++ body)), none⟩, w1)
      else
        match env.unmarshalListing body with
        | .error e =>
            (⟨some (NewToolResultError ("Error parsing prototypes JSON: " ++ e)), none⟩, w1)
        | .ok data =>
            (⟨some (NewToolResultText (env.marshalSummaries (projectSummaries data.Results))),
              none⟩, w1)

/-- The scan loop of `resolvePrototypeIDByName`: every visited name is appended to
`candidates` before it is compared; the loop returns the id of the first item whose
lower-cased name equals `target`, and the collected candidates when it runs off the end. -/
def scanResults (tbl : Char → Char) (target : String) :
    List mockyItem → List String → Except (List String) String
  | [], candidates => .error candidates
  | it :: rest, candidates =>
      let candidates := candidates ++ [it.Name]
      if ToLower tbl it.Name = target then .ok it.ID
      else scanResults tbl target rest candidates

/-- The part of `resolvePrototypeIDByName` after the listing was decoded. -/
def resolveIn {σ : Type} (env : Env σ) (name : String) (data : mockyResponse) :
    Except String String :=
  let target := TrimSpace (ToLower env.lowerTable name)
  match scanResults env.lowerTable target data.Results [] with
  | .ok id => .ok id
  | .error candidates =>
      .error ("prototype with name " ++ env.quote name ++ " not found. Available: "
        ++ fmtStrings candidates)

/-- The helper `resolvePrototypeIDByName`; the error is the text of `err.Error()`. -/
def resolvePrototypeIDByName {σ : Type} (env : Env σ) (name : String) (w : World σ) :
    Except String String × World σ :=
  match fetch env base w with
  | (.getFailed e, w1) => (.error ("error calling prototypes API: " ++ e), w1)
  | (.readFailed _ e, w1) => (.error ("error reading prototypes response: " ++ e), w1)
  | (.response status body, w1) =>
      if status < 200 ∨ status > 299 then
        (.error ("non-OK status " ++ fmtInt status ++ " from prototypes API: " ++ body), w1)
      else
        match env.unmarshalListing body with
        | .error e => (.error ("error parsing prototypes JSON: " ++ e), w1)
        | .ok data => (resolveIn env name data, w1)

/-- The projection of a decoded envelope into `detailOut`. -/
def projectDetail (envelop : detailEnvelope) : detailOut :=
  { ID := envelop.Data.ID
    Name := envelop.Data.Name
    Method := envelop.Data.Request.Method
    URLPath := envelop.Data.Request.URLPath
    Delay := envelop.Data.Request.Delay
    ResponseStatus := envelop.Data.Response.Body.StatusCode
    ResponseSuccess := envelop.Data.Response.Body.Success
    ResponseData := envelop.Data.Response.Body.Data
    CreatedAt := envelop.Data.CreatedAt
    UpdatedAt := envelop.Data.UpdatedAt
    AdditionalHeaders := envelop.Data.Request.Headers }

/-- The detail URL, `fmt.Sprintf("%s/%s", base, id)`. -/
def detailURL (id : String) : String := base ++ "/" ++ id

/-- The second half of `getPrototypeDetailHandler`, from the detail request on, for the
id that was supplied or resolved. -/
def fetchDetail {σ : Type} (env : Env σ) (id : String) (w : World σ) :
    HandlerReturn × World σ :=
  match fetch env (detailURL id) w with
  | (.getFailed e, w1) =>
      (⟨some (NewToolResultError ("Error calling prototype detail API: " ++ e)), none⟩, w1)
  | (.readFailed _ e, w1) =>
      (⟨some (NewToolResultError ("Error reading prototype detail response: " ++ e)), none⟩, w1)
  | (.response status body, w1) =>
      if status < 200 ∨ status > 299 then
        (⟨some (NewToolResultError
            ("Non-OK status " ++ fmtInt status ++ " from detail API: " ++ body)), none⟩, w1)
      else
        match env.unmarshalDetail body with
        | .error e =>
            (⟨some (NewToolResultError ("Error parsing detail JSON: " ++ e)), none⟩, w1)
        | .ok envelop =>
            (⟨some (NewToolResultText (env.marshalDetail (projectDetail envelop))), none⟩, w1)

/-- The handler `getPrototypeDetailHandler`. -/
def getPrototypeDetailHandler {σ : Type} (env : Env σ) (request : CallToolRequest)
    (w : World σ) : HandlerReturn × World σ :=
  let id := GetString request "id" ""
  let name := GetString request "name" ""
  if id = "" then
    if name = "" then
      (⟨some (NewToolResultError "Provide either 'id' or 'name'."), none⟩, w)
    else
      match resolvePrototypeIDByName env name w with
      | (.error e, w1) => (⟨some (NewToolResultError e), none⟩, w1)
      | (.ok resolvedID, w1) => fetchDetail env resolvedID w1
  else
    fetchDetail env id w

/-! ## Predicates used in the statements -/

/-- The listing request to `url` in world `w` is answered with a 2xx status and a body that
decodes to `data`. -/
def ListingDecodes {σ : Type} (env : Env σ) (url : String) (w : World σ)
    (data : mockyResponse) : Prop :=
  ∃ status body, (env.httpGet w.net url).1 = .response status body ∧
    200 ≤ status ∧ status ≤ 299 ∧ env.unmarshalListing body = .ok data

/-- The comparison of the scan loop, for the name the caller supplied: the lower-cased item
name against the lower-cased, then trimmed, target. -/
def nameMatches (tbl : Char → Char) (name : String) (it : mockyItem) : Prop :=
  ToLower tbl it.Name = TrimSpace (ToLower tbl name)

instance (tbl : Char → Char) (name : String) (it : mockyItem) :
    Decidable (nameMatches tbl name it) := by
  unfold nameMatches; infer_instance

/-- The match as the specification words it (section 4.2): the item name and the target
are equal after removing leading/trailing white space and ignoring letter case on both
sides. It is compared below with `nameMatches`, the comparison of the code. -/
def specNameMatches (tbl : Char → Char) (name : String) (it : mockyItem) : Prop :=
  ToLower tbl (TrimSpace it.Name) = ToLower tbl (TrimSpace name)

instance (tbl : Char → Char) (name : String) (it : mockyItem) :
    Decidable (specNameMatches tbl name it) := by
  unfold specNameMatches; infer_instance

/-- The strings `names` occur in `msg` one after the other, without overlap, in this order. -/
def OccurInOrder : List String → List Char → Prop
  | [], _ => True
  | n :: ns, msg => ∃ pre rest, msg = pre ++ n.data ++ rest ∧ OccurInOrder ns rest

/-- A handler return that reports a failed status check: an error result whose text starts
with `Non-OK status `. -/
def IsStatusFailure (r : HandlerReturn) : Prop :=
  ∃ msg, r = ⟨some (NewToolResultError msg), none⟩ ∧ "Non-OK status ".data <+: msg.data

/-- A resolver return that reports a failed status check: an error whose text starts with
`non-OK status `. -/
def IsResolverStatusFailure (r : Except String String) : Prop :=
  ∃ msg, r = .error msg ∧ "non-OK status ".data <+: msg.data

/-- The summary the listing handler builds for one item. -/
def summaryOf (it : mockyItem) : outItem :=
  { ID := it.ID, Name := it.Name, Method := it.Request.Method, URLPath := it.Request.URLPath }

/-! ## A mock service, for concrete runs -/

/-- A mock network: a routing table from URL to outcome; an unknown URL refuses the
connection. The table does not change. -/
def mockGet (routes : List (String × HttpOutcome)) (url : String) :
    HttpOutcome × List (String × HttpOutcome) :=
  match routes.lookup url with
  | some o => (o, routes)
  | none => (.getFailed "connection refused", routes)

/-- What `strconv.Quote` yields on printable ASCII without quote or backslash. -/
def plainQuote (s : String) : String := "\"" ++ s ++ "\""

/-- A mock environment: the network is a routing table, the decoders know the bodies listed
in `listings` and `details`, the case table leaves the runes above ASCII alone. -/
def mockEnv (listings : List (String × mockyResponse))
    (details : List (String × detailEnvelope)) : Env (List (String × HttpOutcome)) where
  httpGet := mockGet
  lowerTable := fun c => c
  quote := plainQuote
  unmarshalListing := fun body =>
    match listings.lookup body with
    | some d => .ok d
    | none => .error "unexpected end of JSON input"
  unmarshalDetail := fun body =>
    match details.lookup body with
    | some d => .ok d
    | none => .error "unexpected end of JSON input"
  marshalSummaries := fun out =>
    fmtStrings (out.map fun o => o.ID ++ "," ++ o.Name ++ "," ++ o.Method ++ "," ++ o.URLPath)
  marshalDetail := fun d => d.ID ++ "," ++ d.Name ++ "," ++ d.Method ++ "," ++ d.URLPath

/-- The item of the example listing of the specification. -/
def loginItem : mockyItem :=
  { ID := "p1", Name := "Login", Request := { Method := "POST", URLPath := "/login" } }

/-- The body of the example listing of the specification. -/
def loginBody : String :=
  "\x7b\"results\":[\x7b\"id\":\"p1\",\"name\":\"Login\",\"request\":\x7b\"method\":\"POST\",\"urlPath\":\"/login\"\x7d\x7d]\x7d"

/-- A detail envelope for the item `p1` of the example listing. -/
def loginDetail : detailEnvelope :=
  { Data :=
    { CreatedAt := "2024-01-01", ID := "p1", Name := "Login",
      Request := { BodySchema := Json.null, Delay := 0, Headers := [], Method := "POST",
                   PathParams := [], URLPath := "/login" },
      Response := { Body := { Data := [], StatusCode := 200, Success := true } },
      UpdatedAt := "2024-01-02" } }

/-- A world that has issued no request yet. -/
def freshWorld (routes : List (String × HttpOutcome)) : World (List (String × HttpOutcome)) :=
  { net := routes, trace := [] }

/-- A tool call with the given `id` and `name` arguments. -/
def detailRequest (id name : String) : CallToolRequest :=
  { arguments := [("id", Json.str id), ("name", Json.str name)] }

/-! ## Lemmas on the library functions -/

theorem joinBlank_cons (x : String) (xs : List String) :
    ∃ tail, joinBlank (x :: xs) = x ++ tail ∧
      (xs = [] → tail = "") ∧ (xs ≠ [] → tail = " " ++ joinBlank xs) := by
  cases xs with
  | nil => exact ⟨"", by simp [joinBlank], fun _ => rfl, fun h => absurd rfl h⟩
  | cons y ys =>
    exact ⟨" " ++ joinBlank (y :: ys), by simp [joinBlank, String.append_assoc],
      fun h => (by cases h), fun _ => rfl⟩

theorem occurInOrder_joinBlank (names : List String) :
    ∀ pre suf : List Char, OccurInOrder names (pre ++ (joinBlank names).data ++ suf) := by
  induction names with
  | nil => intro pre suf; trivial
  | cons x xs ih =>
    intro pre suf
    obtain ⟨tail, hx, hnil, hcons⟩ := joinBlank_cons x xs
    refine ⟨pre, tail.data ++ suf, ?_, ?_⟩
    · rw [hx]; simp [List.append_assoc]
    · by_cases hxs : xs = []
      · subst hxs; trivial
      · rw [hcons hxs]
        have := ih [' '] suf
        simpa [List.append_assoc] using this

theorem mem_joinBlank (names : List String) (n : String) (hn : n ∈ names) :
    n.data <:+: (joinBlank names).data := by
  induction names with
  | nil => cases hn
  | cons x xs ih =>
    obtain ⟨tail, hx, hnil, hcons⟩ := joinBlank_cons x xs
    rcases List.mem_cons.1 hn with h | h
    · subst h
      exact ⟨[], tail.data, by rw [hx]; simp⟩
    · have hxs : xs ≠ [] := by rintro rfl; cases h
      obtain ⟨s, t, hst⟩ := ih h
      refine ⟨x.data ++ [' '] ++ s, t, ?_⟩
      rw [hx, hcons hxs]
      simp [List.append_assoc, ← hst]

theorem toNat_ofNat_small (n : Nat) (h : n < 200) : (Char.ofNat n).toNat = n := by
  have hv : n.isValidChar := Or.inl (by omega)
  simp [Char.ofNat, hv, Char.toNat, Char.ofNatAux, UInt32.toNat]

/-- Lower-casing keeps white space white space and other runes other runes, as soon as
the case table does so above ASCII. -/
theorem isSpace_toLowerRune (tbl : Char → Char)
    (hsp : ∀ r : Char, 0x7F < r.toNat → isSpace (tbl r) = isSpace r) (r : Char) :
    isSpace (toLowerRune tbl r) = isSpace r := by
  unfold toLowerRune
  by_cases h1 : r.toNat ≤ 0x7F
  · by_cases h2 : 'A'.toNat ≤ r.toNat ∧ r.toNat ≤ 'Z'.toNat
    · have hA : 'A'.toNat = 65 := by decide
      have hZ : 'Z'.toNat = 90 := by decide
      have h2n : 65 ≤ r.toNat ∧ r.toNat ≤ 90 := by rw [hA, hZ] at h2; exact h2
      have h3 : (Char.ofNat (r.toNat + 32)).toNat = r.toNat + 32 :=
        toNat_ofNat_small _ (by omega)
      rw [if_pos h1, if_pos h2]
      have e1 : isSpace (Char.ofNat (r.toNat + 32)) = false := by
        unfold isSpace
        simp only [h3]
        rw [if_pos (by omega)]
        simp
        omega
      have e2 : isSpace r = false := by
        unfold isSpace
        simp only []
        rw [if_pos (by omega)]
        simp
        omega
      rw [e1, e2]
    · rw [if_pos h1, if_neg h2]
  · rw [if_neg h1]
    exact hsp r (by omega)

/-- For such a case table, trimming the lower-cased string (what the resolver does to the
target) is lower-casing the trimmed string. -/
theorem trimSpace_toLower_comm (tbl : Char → Char)
    (hsp : ∀ r : Char, 0x7F < r.toNat → isSpace (tbl r) = isSpace r) (s : String) :
    TrimSpace (ToLower tbl s) = ToLower tbl (TrimSpace s) := by
  have hc : isSpace ∘ toLowerRune tbl = isSpace := funext (isSpace_toLowerRune tbl hsp)
  unfold TrimSpace ToLower
  apply String.ext
  simp only [List.dropWhile_map, hc, ← List.map_reverse]

/-! ## Lemmas on the scan loop -/

theorem scanResults_no_match (tbl : Char → Char) (target : String) (items : List mockyItem) :
    ∀ candidates, (∀ it ∈ items, ToLower tbl it.Name ≠ target) →
      scanResults tbl target items candidates = .error (candidates ++ items.map (·.Name)) := by
  induction items with
  | nil => intro c _; simp [scanResults]
  | cons it rest ih =>
    intro c h
    have h1 : ToLower tbl it.Name ≠ target := h it (List.mem_cons_self _ _)
    have h2 := ih (c ++ [it.Name]) (fun x hx => h x (List.mem_cons_of_mem _ hx))
    simp [scanResults, h1, h2]

theorem scanResults_first_match (tbl : Char → Char) (target : String)
    (front : List mockyItem) (it : mockyItem) (back : List mockyItem) :
    ∀ candidates, (∀ x ∈ front, ToLower tbl x.Name ≠ target) → ToLower tbl it.Name = target →
      scanResults tbl target (front ++ it :: back) candidates = .ok it.ID := by
  induction front with
  | nil => intro c _ h; simp [scanResults, h]
  | cons x rest ih =>
    intro c h hit
    have h1 : ToLower tbl x.Name ≠ target := h x (List.mem_cons_self _ _)
    have h2 := ih (c ++ [x.Name]) (fun y hy => h y (List.mem_cons_of_mem _ hy)) hit
    simpa [scanResults, h1] using h2

theorem resolve_of_decodes {σ : Type} (env : Env σ) (name : String) (w : World σ)
    (data : mockyResponse) (h : ListingDecodes env base w data) :
    resolvePrototypeIDByName env name w =
      (resolveIn env name data,
        { net := (env.httpGet w.net base).2, trace := w.trace ++ [base] }) := by
  obtain ⟨status, body, hget, hlo, hhi, hdec⟩ := h
  have hrange : ¬ (status < 200 ∨ status > 299) := by omega
  simp [resolvePrototypeIDByName, fetch, hget, hrange, hdec]

theorem exists_first_match (tbl : Char → Char) (name : String) (items : List mockyItem)
    (h : ∃ it ∈ items, nameMatches tbl name it) :
    ∃ front it back, items = front ++ it :: back ∧
      (∀ x ∈ front, ¬ nameMatches tbl name x) ∧ nameMatches tbl name it := by
  induction items with
  | nil => obtain ⟨it, hit, _⟩ := h; cases hit
  | cons a rest ih =>
    by_cases ha : nameMatches tbl name a
    · exact ⟨[], a, rest, rfl, fun x hx => (by cases hx), ha⟩
    · obtain ⟨it, hit, hm⟩ := h
      rcases List.mem_cons.1 hit with rfl | hmem
      · exact absurd hm ha
      · obtain ⟨front, it1, back, heq, hfront, hit1⟩ := ih ⟨it, hmem, hm⟩
        refine ⟨a :: front, it1, back, by simp [heq], ?_, hit1⟩
        intro x hx
        rcases List.mem_cons.1 hx with rfl | hx1
        · exact ha
        · exact hfront x hx1

theorem resolveIn_first_match {σ : Type} (env : Env σ) (name : String)
    (front : List mockyItem) (it : mockyItem) (back : List mockyItem)
    (hfront : ∀ x ∈ front, ¬ nameMatches env.lowerTable name x)
    (hit : nameMatches env.lowerTable name it) :
    resolveIn env name ⟨front ++ it :: back⟩ = .ok it.ID := by
  have := scanResults_first_match env.lowerTable (TrimSpace (ToLower env.lowerTable name))
    front it back [] hfront hit
  simp [resolveIn, this]

theorem resolveIn_no_match {σ : Type} (env : Env σ) (name : String) (data : mockyResponse)
    (hno : ∀ it ∈ data.Results, ¬ nameMatches env.lowerTable name it) :
    resolveIn env name data =
      .error ("prototype with name " ++ env.quote name ++ " not found. Available: "
        ++ fmtStrings (data.Results.map (·.Name))) := by
  have := scanResults_no_match env.lowerTable (TrimSpace (ToLower env.lowerTable name))
    data.Results [] hno
  simp [resolveIn, this]

theorem resolveIn_first_match_index {σ : Type} (env : Env σ) (name : String)
    (data : mockyResponse) (h : ∃ it ∈ data.Results, nameMatches env.lowerTable name it) :
    ∃ i it, data.Results[i]? = some it ∧ nameMatches env.lowerTable name it ∧
      (∀ (j : Nat) (x : mockyItem), j < i → data.Results[j]? = some x →
        ¬ nameMatches env.lowerTable name x) ∧
      resolveIn env name data = .ok it.ID := by
  obtain ⟨front, it, back, heq, hfront, hit⟩ :=
    exists_first_match env.lowerTable name data.Results h
  have hd : data = ⟨front ++ it :: back⟩ := by cases data; simp_all
  have hidx : data.Results[front.length]? = some it := by
    rw [heq, List.getElem?_append_right (le_refl _)]; simp
  refine ⟨front.length, it, hidx, hit, ?_, ?_⟩
  · intro j x hj hx
    rw [heq, List.getElem?_append_left hj] at hx
    exact hfront x (List.getElem?_mem hx)
  · rw [hd]
    exact resolveIn_first_match env name front it back hfront hit

/-- On an item whose name carries no leading or trailing white space, and for a case table
that keeps white space apart from the other runes, the comparison of the code is the match
of the specification. -/
theorem nameMatches_iff_specNameMatches (tbl : Char → Char)
    (hsp : ∀ r : Char, 0x7F < r.toNat → isSpace (tbl r) = isSpace r)
    (name : String) (it : mockyItem) (htrim : TrimSpace it.Name = it.Name) :
    nameMatches tbl name it ↔ specNameMatches tbl name it := by
  unfold nameMatches specNameMatches
  rw [htrim, trimSpace_toLower_comm tbl hsp name]

/-! ## Name resolution -/

/-- C1, as stated, fails: the target `"alpha"` and the item name `" alpha "` are equal after
trimming and lower-casing both, yet the resolver does not match them, because it trims the
target only and never the item name. (All runes are ASCII, so the case table is not
consulted.) -/
theorem resolve_item_name_untrimmed_counterexample :
    ToLower (fun c => c) (TrimSpace "alpha") = ToLower (fun c => c) (TrimSpace " alpha ") ∧
    (resolvePrototypeIDByName
        (mockEnv [("L", ⟨[{ ID := "p9", Name := " alpha ", Request := ⟨"GET", "/a"⟩ }]⟩)] [])
        "alpha" (freshWorld [(base, .response 200 "L")])).1
      = .error "prototype with name \"alpha\" not found. Available: [ alpha ]" := by
  decide

/-- C1, amended: when the lower-cased item name `n`, taken as it is in the listing, equals
the lower-cased and then trimmed target `t`, the resolver treats the item as a match, so
resolution against a successfully decoded listing that contains the item succeeds. -/
theorem resolve_succeeds_on_match {σ : Type} (env : Env σ) (w : World σ) (t n : String)
    (data : mockyResponse) (hdec : ListingDecodes env base w data)
    (hmem : ∃ it ∈ data.Results, it.Name = n)
    (hmatch : ToLower env.lowerTable n = TrimSpace (ToLower env.lowerTable t)) :
    ∃ id, (resolvePrototypeIDByName env t w).1 = .ok id := by
  obtain ⟨it, hit, hname⟩ := hmem
  have hm : nameMatches env.lowerTable t it := by
    unfold nameMatches; rw [hname]; exact hmatch
  obtain ⟨front, it1, back, heq, hfront, hit1⟩ :=
    exists_first_match env.lowerTable t data.Results ⟨it, hit, hm⟩
  refine ⟨it1.ID, ?_⟩
  rw [resolve_of_decodes env t w data hdec]
  have hd : data = ⟨front ++ it1 :: back⟩ := by cases data; simp_all
  rw [hd]
  exact resolveIn_first_match env t front it1 back hfront hit1

/-- Witness for C1: the target `" Alpha "` resolves against a listing whose item is named
`"alpha"`. -/
theorem resolve_succeeds_on_match_witness :
    ∃ id, (resolvePrototypeIDByName
        (mockEnv [("L", ⟨[{ ID := "p7", Name := "alpha", Request := ⟨"GET", "/a"⟩ }]⟩)] [])
        " Alpha " (freshWorld [(base, .response 200 "L")])).1 = .ok id :=
  resolve_succeeds_on_match
    (mockEnv [("L", ⟨[{ ID := "p7", Name := "alpha", Request := ⟨"GET", "/a"⟩ }]⟩)] [])
    (freshWorld [(base, .response 200 "L")]) " Alpha " "alpha"
    ⟨[{ ID := "p7", Name := "alpha", Request := ⟨"GET", "/a"⟩ }]⟩
    ⟨200, "L", by decide, by decide, by decide, by decide⟩
    ⟨{ ID := "p7", Name := "alpha", Request := ⟨"GET", "/a"⟩ }, by decide, rfl⟩
    (by decide)

/-- C2, as stated, fails when "matches" is the match of the specification (both sides
trimmed and lower-cased). The item ` login ` (p1) matches the target `login` in that
sense and comes first, yet the resolver returns `p2`, the id of the later item `login`;
and against the listing that holds ` login ` alone the resolver returns an error although
an item matches. -/
theorem resolve_first_spec_match_counterexample :
    specNameMatches (fun c => c) "login"
      { ID := "p1", Name := " login ", Request := ⟨"GET", "/a"⟩ } ∧
    (resolvePrototypeIDByName
        (mockEnv [("L", ⟨[{ ID := "p1", Name := " login ", Request := ⟨"GET", "/a"⟩ },
          { ID := "p2", Name := "login", Request := ⟨"GET", "/b"⟩ }]⟩)] [])
        "login" (freshWorld [(base, .response 200 "L")])).1 = .ok "p2" ∧
    (resolvePrototypeIDByName
        (mockEnv [("M", ⟨[{ ID := "p1", Name := " login ", Request := ⟨"GET", "/a"⟩ }]⟩)] [])
        "login" (freshWorld [(base, .response 200 "M")])).1
      = .error "prototype with name \"login\" not found. Available: [ login ]" := by
  decide

/-- C2, amended: an item matches the target when its lower-cased name, not trimmed, equals
the lower-cased and then trimmed target (`nameMatches`, the comparison of the code).
Against a successfully decoded listing, if some item matches then the resolver returns,
without error, the id of the earliest matching item (no earlier item matches; later items
with the same name change nothing), and it returns an error exactly when no item
matches. -/
theorem resolve_returns_first_match {σ : Type} (env : Env σ) (w : World σ) (name : String)
    (data : mockyResponse) (hdec : ListingDecodes env base w data) :
    ((∃ it ∈ data.Results, nameMatches env.lowerTable name it) →
      ∃ i it, data.Results[i]? = some it ∧ nameMatches env.lowerTable name it ∧
        (∀ (j : Nat) (x : mockyItem), j < i → data.Results[j]? = some x →
          ¬ nameMatches env.lowerTable name x) ∧
        (resolvePrototypeIDByName env name w).1 = .ok it.ID) ∧
    ((∃ e, (resolvePrototypeIDByName env name w).1 = .error e) ↔
      ∀ it ∈ data.Results, ¬ nameMatches env.lowerTable name it) := by
  rw [resolve_of_decodes env name w data hdec]
  refine ⟨resolveIn_first_match_index env name data, ?_, ?_⟩
  · rintro ⟨e, he⟩
    by_contra hcon
    have hex : ∃ it ∈ data.Results, nameMatches env.lowerTable name it := by
      by_contra hne
      exact hcon (fun it hit hm => hne ⟨it, hit, hm⟩)
    obtain ⟨_, it, _, _, _, hok⟩ := resolveIn_first_match_index env name data hex
    simp only at he
    rw [hok] at he
    cases he
  · intro hno
    exact ⟨_, resolveIn_no_match env name data hno⟩

/-- Witness for C2: the listing ` login ` (p0), `Login` (p1), `login` (p2). For the target
` LOGIN ` the padded item is passed over and the first of the two others, `p1`, is
returned; the target `logout` is an error. -/
theorem resolve_returns_first_match_witness :
    (resolvePrototypeIDByName
        (mockEnv [("L", ⟨[{ ID := "p0", Name := " login ", Request := ⟨"GET", "/a"⟩ },
          loginItem, { ID := "p2", Name := "login", Request := ⟨"GET", "/l"⟩ }]⟩)] [])
        " LOGIN " (freshWorld [(base, .response 200 "L")])).1 = .ok "p1" ∧
    ∃ e, (resolvePrototypeIDByName
        (mockEnv [("L", ⟨[{ ID := "p0", Name := " login ", Request := ⟨"GET", "/a"⟩ },
          loginItem, { ID := "p2", Name := "login", Request := ⟨"GET", "/l"⟩ }]⟩)] [])
        "logout" (freshWorld [(base, .response 200 "L")])).1 = .error e := by
  have hdec : ListingDecodes
      (mockEnv [("L", ⟨[{ ID := "p0", Name := " login ", Request := ⟨"GET", "/a"⟩ },
        loginItem, { ID := "p2", Name := "login", Request := ⟨"GET", "/l"⟩ }]⟩)] [])
      base (freshWorld [(base, .response 200 "L")])
      ⟨[{ ID := "p0", Name := " login ", Request := ⟨"GET", "/a"⟩ },
        loginItem, { ID := "p2", Name := "login", Request := ⟨"GET", "/l"⟩ }]⟩ :=
    ⟨200, "L", by decide, by decide, by decide, by decide⟩
  constructor
  · obtain ⟨i, it, hi, hm, hfirst, hres⟩ :=
      (resolve_returns_first_match _ _ " LOGIN " _ hdec).1 ⟨loginItem, by decide, by decide⟩
    have h1 : i = 1 := by
      rcases Nat.lt_trichotomy i 1 with hlt | heq | hgt
      · have h0 : i = 0 := by omega
        subst h0
        have : some ({ ID := "p0", Name := " login ", Request := ⟨"GET", "/a"⟩ } : mockyItem)
            = some it := by simpa using hi
        have hit := (Option.some.inj this).symm
        subst hit
        exact absurd hm (by decide)
      · exact heq
      · exact absurd (by decide) (hfirst 1 loginItem hgt (by decide))
    subst h1
    have hit : it = loginItem := by
      have : some loginItem = some it := by simpa using hi
      exact (Option.some.inj this).symm
    rw [hres, hit]
    rfl
  · exact (resolve_returns_first_match _ _ "logout" _ hdec).2.2 (by decide)

/-- C3: against a successfully decoded listing in which no item matches the target, the
candidates collected by the scan are the names of the listing in listing order, and the
resolver fails with the message built from them: every item name is contained in the
message, and the names occur in it one after the other in listing order. -/
theorem resolve_failure_lists_candidates {σ : Type} (env : Env σ) (w : World σ)
    (name : String) (data : mockyResponse) (hdec : ListingDecodes env base w data)
    (hno : ∀ it ∈ data.Results, ¬ nameMatches env.lowerTable name it) :
    scanResults env.lowerTable (TrimSpace (ToLower env.lowerTable name)) data.Results []
      = .error (data.Results.map (·.Name)) ∧
    ∃ msg, (resolvePrototypeIDByName env name w).1 = .error msg ∧
      msg = "prototype with name " ++ env.quote name ++ " not found. Available: "
        ++ fmtStrings (data.Results.map (·.Name)) ∧
      (∀ it ∈ data.Results, it.Name.data <:+: msg.data) ∧
      OccurInOrder (data.Results.map (·.Name)) msg.data := by
  refine ⟨by simpa using scanResults_no_match _ _ data.Results [] hno, _, ?_, rfl, ?_, ?_⟩
  · rw [resolve_of_decodes env name w data hdec]
    exact resolveIn_no_match env name data hno
  · intro it hit
    obtain ⟨s, t, hst⟩ := mem_joinBlank (data.Results.map (·.Name)) it.Name
      (List.mem_map_of_mem _ hit)
    refine ⟨("prototype with name " ++ env.quote name ++ " not found. Available: ").data
      ++ ['['] ++ s, t ++ [']'], ?_⟩
    simp only [fmtStrings, String.data_append, ← hst]
    simp [List.append_assoc]
  · have := occurInOrder_joinBlank (data.Results.map (·.Name))
      (("prototype with name " ++ env.quote name ++ " not found. Available: ").data ++ ['['])
      [']']
    simpa [fmtStrings, List.append_assoc] using this

/-- Witness for C3: the target `"logout"` against the listing `Login`, `Sign up`. -/
theorem resolve_failure_lists_candidates_witness :
    (resolvePrototypeIDByName
        (mockEnv [("L", ⟨[loginItem, { ID := "p2", Name := "Sign up", Request := ⟨"GET", "/s"⟩ }]⟩)]
          [])
        "logout" (freshWorld [(base, .response 200 "L")])).1
      = .error "prototype with name \"logout\" not found. Available: [Login Sign up]" := by
  obtain ⟨_, msg, hres, hmsg, _, _⟩ := resolve_failure_lists_candidates
    (mockEnv [("L", ⟨[loginItem, { ID := "p2", Name := "Sign up", Request := ⟨"GET", "/s"⟩ }]⟩)]
      [])
    (freshWorld [(base, .response 200 "L")]) "logout"
    ⟨[loginItem, { ID := "p2", Name := "Sign up", Request := ⟨"GET", "/s"⟩ }]⟩
    ⟨200, "L", by decide, by decide, by decide, by decide⟩ (by decide)
  rw [hres, hmsg]
  decide

/-! ## The listing handler -/

theorem foldl_append_singleton {α β : Type} (g : α → β) (l : List α) :
    ∀ acc : List β, l.foldl (fun out a => out ++ [g a]) acc = acc ++ l.map g := by
  induction l with
  | nil => intro acc; simp
  | cons a rest ih => intro acc; simp [ih]

theorem projectSummaries_eq_map (results : List mockyItem) :
    projectSummaries results = results.map summaryOf := by
  have := foldl_append_singleton summaryOf results []
  simpa [projectSummaries, summaryOf] using this

/-- C4: for a successfully decoded listing with N items, the summary sequence the listing
handler builds (and hands to the JSON encoder) has N elements, and its i-th element is
the projection {id, name, request.method, request.urlPath} of the i-th item. -/
theorem list_projection_preserves_order {σ : Type} (env : Env σ) (request : CallToolRequest)
    (w : World σ) (data : mockyResponse) (hdec : ListingDecodes env listURL w data) :
    (listPrototypesHandler env request w).1 =
      ⟨some (NewToolResultText (env.marshalSummaries (projectSummaries data.Results))), none⟩ ∧
    (projectSummaries data.Results).length = data.Results.length ∧
    ∀ (i : Nat) (it : mockyItem), data.Results[i]? = some it →
      (projectSummaries data.Results)[i]? =
        some { ID := it.ID, Name := it.Name, Method := it.Request.Method,
               URLPath := it.Request.URLPath } := by
  obtain ⟨status, body, hget, hlo, hhi, hbody⟩ := hdec
  have hrange : ¬ (status < 200 ∨ status > 299) := by omega
  refine ⟨?_, ?_, ?_⟩
  · simp [listPrototypesHandler, fetch, hget, hrange, hbody]
  · simp [projectSummaries_eq_map]
  · intro i it hi
    simp [projectSummaries_eq_map, List.getElem?_map, hi, summaryOf]

/-- Witness for C4: the example listing of the specification projects to the single
summary {p1, Login, POST, /login}. -/
theorem list_projection_preserves_order_witness :
    (projectSummaries [loginItem]).length = 1 ∧
    (projectSummaries [loginItem])[0]? =
      some { ID := "p1", Name := "Login", Method := "POST", URLPath := "/login" } ∧
    (listPrototypesHandler (mockEnv [(loginBody, ⟨[loginItem]⟩)] []) ⟨[]⟩
        (freshWorld [(listURL, .response 200 loginBody)])).1 =
      ⟨some (NewToolResultText "[p1,Login,POST,/login]"), none⟩ := by
  obtain ⟨hres, hlen, hidx⟩ := list_projection_preserves_order
    (mockEnv [(loginBody, ⟨[loginItem]⟩)] []) ⟨[]⟩
    (freshWorld [(listURL, .response 200 loginBody)]) ⟨[loginItem]⟩
    ⟨200, loginBody, by decide, by decide, by decide, by decide⟩
  refine ⟨hlen, hidx 0 loginItem rfl, ?_⟩
  rw [hres]
  decide

/-! ## The detail handler -/

theorem fetchDetail_trace {σ : Type} (env : Env σ) (id : String) (w : World σ) :
    (fetchDetail env id w).2.trace = w.trace ++ [detailURL id] := by
  unfold fetchDetail fetch
  cases h : (env.httpGet w.net (detailURL id)).1 with
  | getFailed e => simp [h]
  | readFailed st e => simp [h]
  | response status body =>
    by_cases hr : status < 200 ∨ status > 299
    · simp [h, hr]
    · cases hd : env.unmarshalDetail body <;> simp [h, hr, hd]

theorem resolve_trace {σ : Type} (env : Env σ) (name : String) (w : World σ) :
    (resolvePrototypeIDByName env name w).2.trace = w.trace ++ [base] := by
  unfold resolvePrototypeIDByName fetch
  cases h : (env.httpGet w.net base).1 with
  | getFailed e => simp [h]
  | readFailed st e => simp [h]
  | response status body =>
    by_cases hr : status < 200 ∨ status > 299
    · simp [h, hr]
    · cases hd : env.unmarshalListing body <;> simp [h, hr, hd]

/-- C5: when both the `id` and the `name` parameter are empty, the detail handler returns
the error result `Provide either 'id' or 'name'.` and issues no request: the world, and
with it the trace of requests, is unchanged. -/
theorem detail_without_selector {σ : Type} (env : Env σ) (request : CallToolRequest)
    (w : World σ) (hid : GetString request "id" "" = "")
    (hname : GetString request "name" "" = "") :
    getPrototypeDetailHandler env request w =
      (⟨some (NewToolResultError "Provide either 'id' or 'name'."), none⟩, w) ∧
    (getPrototypeDetailHandler env request w).2.trace = w.trace := by
  simp [getPrototypeDetailHandler, hid, hname]

/-- Witness for C5: a call without arguments against a fresh world leaves the trace empty. -/
theorem detail_without_selector_witness :
    getPrototypeDetailHandler (mockEnv [] []) ⟨[]⟩ (freshWorld []) =
      (⟨some (NewToolResultError "Provide either 'id' or 'name'."), none⟩, freshWorld []) ∧
    (getPrototypeDetailHandler (mockEnv [] []) ⟨[]⟩ (freshWorld [])).2.trace = [] :=
  detail_without_selector (mockEnv [] []) ⟨[]⟩ (freshWorld []) (by decide) (by decide)

/-- C6: with a non-empty `id`, whatever the `name`, the detail handler issues exactly one
request, to `base/id` with the id unchanged (the listing is not requested), and its
outcome is the same for every request that carries this id. -/
theorem detail_by_id_single_fetch {σ : Type} (env : Env σ) (request : CallToolRequest)
    (w : World σ) (hid : GetString request "id" "" ≠ "") :
    (getPrototypeDetailHandler env request w).2.trace =
      w.trace ++ [base ++ "/" ++ GetString request "id" ""] ∧
    getPrototypeDetailHandler env request w =
      fetchDetail env (GetString request "id" "") w ∧
    ∀ other : CallToolRequest, GetString other "id" "" = GetString request "id" "" →
      getPrototypeDetailHandler env other w = getPrototypeDetailHandler env request w := by
  have h1 : getPrototypeDetailHandler env request w =
      fetchDetail env (GetString request "id" "") w := by
    simp [getPrototypeDetailHandler, hid]
  refine ⟨?_, h1, ?_⟩
  · rw [h1, fetchDetail_trace]; rfl
  · intro other ho
    have hid2 : GetString other "id" "" ≠ "" := by rw [ho]; exact hid
    rw [h1]
    simp [getPrototypeDetailHandler, hid, ho]

/-- Witness for C6: id `p1` with the names `login` and `other`: one request, to
`base/p1`, and the same outcome. -/
theorem detail_by_id_single_fetch_witness :
    (getPrototypeDetailHandler (mockEnv [] []) (detailRequest "p1" "login")
        (freshWorld [(base, .response 200 loginBody)])).2.trace
      = [base ++ "/" ++ "p1"] ∧
    getPrototypeDetailHandler (mockEnv [] []) (detailRequest "p1" "other")
        (freshWorld [(base, .response 200 loginBody)])
      = getPrototypeDetailHandler (mockEnv [] []) (detailRequest "p1" "login")
        (freshWorld [(base, .response 200 loginBody)]) :=
  have h := detail_by_id_single_fetch (mockEnv [] []) (detailRequest "p1" "login")
    (freshWorld [(base, .response 200 loginBody)]) (by decide)
  ⟨h.1, h.2.2 (detailRequest "p1" "other") (by decide)⟩

/-- C7: with an empty `id` and a non-empty `name`, when the resolver returns the id `r` the
handler issues two requests, the listing and then `base/r`, and goes on with the detail
of `r`; when the resolver fails with the message `e` the handler returns the error result
with exactly the text `e` and issues the listing request only. -/
theorem detail_by_name_resolves_then_fetches {σ : Type} (env : Env σ)
    (request : CallToolRequest) (w : World σ) (hid : GetString request "id" "" = "")
    (hname : GetString request "name" "" ≠ "") :
    (∀ r w1, resolvePrototypeIDByName env (GetString request "name" "") w = (.ok r, w1) →
      getPrototypeDetailHandler env request w = fetchDetail env r w1 ∧
      (getPrototypeDetailHandler env request w).2.trace =
        w.trace ++ [base, base ++ "/" ++ r]) ∧
    (∀ e w1, resolvePrototypeIDByName env (GetString request "name" "") w = (.error e, w1) →
      getPrototypeDetailHandler env request w = (⟨some (NewToolResultError e), none⟩, w1) ∧
      (getPrototypeDetailHandler env request w).2.trace = w.trace ++ [base]) := by
  constructor
  · intro r w1 hres
    have h1 : getPrototypeDetailHandler env request w = fetchDetail env r w1 := by
      simp [getPrototypeDetailHandler, hid, hname, hres]
    refine ⟨h1, ?_⟩
    have ht := resolve_trace env (GetString request "name" "") w
    rw [hres] at ht
    rw [h1, fetchDetail_trace]
    simp only at ht
    rw [ht]
    simp [detailURL]
  · intro e w1 hres
    have h1 : getPrototypeDetailHandler env request w =
        (⟨some (NewToolResultError e), none⟩, w1) := by
      simp [getPrototypeDetailHandler, hid, hname, hres]
    refine ⟨h1, ?_⟩
    have ht := resolve_trace env (GetString request "name" "") w
    rw [hres] at ht
    rw [h1]
    exact ht

/-- Witness for C7: the name `login` against the example listing requests the listing and
then `/prototypes/p1`; the name `logout` returns the resolver's message after the listing
request alone. -/
theorem detail_by_name_resolves_then_fetches_witness :
    (getPrototypeDetailHandler (mockEnv [(loginBody, ⟨[loginItem]⟩)] [])
        (detailRequest "" "login") (freshWorld [(base, .response 200 loginBody)])).2.trace
      = [base, base ++ "/" ++ "p1"] ∧
    getPrototypeDetailHandler (mockEnv [(loginBody, ⟨[loginItem]⟩)] [])
        (detailRequest "" "logout") (freshWorld [(base, .response 200 loginBody)])
      = (⟨some (NewToolResultError
            "prototype with name \"logout\" not found. Available: [Login]"), none⟩,
          ⟨[(base, .response 200 loginBody)], [base]⟩) :=
  ⟨((detail_by_name_resolves_then_fetches (mockEnv [(loginBody, ⟨[loginItem]⟩)] [])
      (detailRequest "" "login") (freshWorld [(base, .response 200 loginBody)])
      (by decide) (by decide)).1 "p1" ⟨[(base, .response 200 loginBody)], [base]⟩
      (by decide)).2,
   ((detail_by_name_resolves_then_fetches (mockEnv [(loginBody, ⟨[loginItem]⟩)] [])
      (detailRequest "" "logout") (freshWorld [(base, .response 200 loginBody)])
      (by decide) (by decide)).2
      "prototype with name \"logout\" not found. Available: [Login]"
      ⟨[(base, .response 200 loginBody)], [base]⟩ (by decide)).1⟩

/-! ## The status check -/

theorem status_message_contains (lead : String) (status : Int) (mid body : String) :
    (fmtInt status).data <:+: (lead ++ fmtInt status ++ mid ++ body).data ∧
    body.data <:+: (lead ++ fmtInt status ++ mid ++ body).data :=
  ⟨⟨lead.data, mid.data ++ body.data, by simp [List.append_assoc]⟩,
   ⟨lead.data ++ (fmtInt status).data ++ mid.data, [], by simp [List.append_assoc]⟩⟩

theorem list_status_check {σ : Type} (env : Env σ) (request : CallToolRequest)
    (w : World σ) (status : Int) (body : String)
    (hget : (env.httpGet w.net listURL).1 = .response status body) :
    (IsStatusFailure (listPrototypesHandler env request w).1 ↔ (status < 200 ∨ status > 299)) ∧
    ((status < 200 ∨ status > 299) → (listPrototypesHandler env request w).1 =
      ⟨some (NewToolResultError
        ("Non-OK status " ++ fmtInt status ++ " from prototypes API: " ++ body)), none⟩) := by
  by_cases hr : status < 200 ∨ status > 299
  · have hres : (listPrototypesHandler env request w).1 =
        ⟨some (NewToolResultError
          ("Non-OK status " ++ fmtInt status ++ " from prototypes API: " ++ body)), none⟩ := by
      simp [listPrototypesHandler, fetch, hget, hr]
    refine ⟨⟨fun _ => hr, fun _ => ?_⟩, fun _ => hres⟩
    exact ⟨_, hres, ⟨(fmtInt status ++ " from prototypes API: " ++ body).data, by simp⟩⟩
  · refine ⟨⟨?_, fun h => absurd h hr⟩, fun h => absurd h hr⟩
    rintro ⟨msg, hmsg, hpre⟩
    cases hd : env.unmarshalListing body with
    | error e =>
      simp [listPrototypesHandler, fetch, hget, hr, hd, NewToolResultError] at hmsg
      subst hmsg
      simp at hpre
    | ok data =>
      simp [listPrototypesHandler, fetch, hget, hr, hd, NewToolResultError,
        NewToolResultText] at hmsg

theorem detail_status_check {σ : Type} (env : Env σ) (id : String)
    (w : World σ) (status : Int) (body : String)
    (hget : (env.httpGet w.net (detailURL id)).1 = .response status body) :
    (IsStatusFailure (fetchDetail env id w).1 ↔ (status < 200 ∨ status > 299)) ∧
    ((status < 200 ∨ status > 299) → (fetchDetail env id w).1 =
      ⟨some (NewToolResultError
        ("Non-OK status " ++ fmtInt status ++ " from detail API: " ++ body)), none⟩) := by
  by_cases hr : status < 200 ∨ status > 299
  · have hres : (fetchDetail env id w).1 =
        ⟨some (NewToolResultError
          ("Non-OK status " ++ fmtInt status ++ " from detail API: " ++ body)), none⟩ := by
      simp [fetchDetail, fetch, hget, hr]
    refine ⟨⟨fun _ => hr, fun _ => ?_⟩, fun _ => hres⟩
    exact ⟨_, hres, ⟨(fmtInt status ++ " from detail API: " ++ body).data, by simp⟩⟩
  · refine ⟨⟨?_, fun h => absurd h hr⟩, fun h => absurd h hr⟩
    rintro ⟨msg, hmsg, hpre⟩
    cases hd : env.unmarshalDetail body with
    | error e =>
      simp [fetchDetail, fetch, hget, hr, hd, NewToolResultError] at hmsg
      subst hmsg
      simp at hpre
    | ok data =>
      simp [fetchDetail, fetch, hget, hr, hd, NewToolResultError, NewToolResultText] at hmsg

theorem resolve_status_check {σ : Type} (env : Env σ) (name : String)
    (w : World σ) (status : Int) (body : String)
    (hget : (env.httpGet w.net base).1 = .response status body) :
    (IsResolverStatusFailure (resolvePrototypeIDByName env name w).1 ↔
      (status < 200 ∨ status > 299)) ∧
    ((status < 200 ∨ status > 299) → (resolvePrototypeIDByName env name w).1 =
      .error ("non-OK status " ++ fmtInt status ++ " from prototypes API: " ++ body)) := by
  by_cases hr : status < 200 ∨ status > 299
  · have hres : (resolvePrototypeIDByName env name w).1 =
        .error ("non-OK status " ++ fmtInt status ++ " from prototypes API: " ++ body) := by
      simp [resolvePrototypeIDByName, fetch, hget, hr]
    refine ⟨⟨fun _ => hr, fun _ => ?_⟩, fun _ => hres⟩
    exact ⟨_, hres, ⟨(fmtInt status ++ " from prototypes API: " ++ body).data, by simp⟩⟩
  · refine ⟨⟨?_, fun h => absurd h hr⟩, fun h => absurd h hr⟩
    rintro ⟨msg, hmsg, hpre⟩
    cases hd : env.unmarshalListing body with
    | error e =>
      simp [resolvePrototypeIDByName, fetch, hget, hr, hd] at hmsg
      subst hmsg
      simp at hpre
    | ok data =>
      simp only [resolvePrototypeIDByName, fetch, hget, hr, hd, if_false] at hmsg
      unfold resolveIn at hmsg
      cases hs : scanResults env.lowerTable (TrimSpace (ToLower env.lowerTable name))
          data.Results [] with
      | ok r => simp [hs] at hmsg
      | error cands =>
        simp [hs] at hmsg
        subst hmsg
        simp at hpre

/-- C8: at each of the three request sites (the listing handler; the detail request of the
detail handler, reached with a supplied id or with a resolved one; the resolver), when the
response with status `status` and body `body` was read, the operation fails on the status
check exactly when `status < 200` or `status > 299`, and then its result is the status
error alone, whose message contains the decimal rendering of the status and the raw
body. -/
theorem status_check_at_fetch_sites {σ : Type} (env : Env σ) (request : CallToolRequest)
    (name : String) (w : World σ) (status : Int) (body : String) :
    ((env.httpGet w.net listURL).1 = .response status body →
      (IsStatusFailure (listPrototypesHandler env request w).1 ↔
        (status < 200 ∨ status > 299)) ∧
      ((status < 200 ∨ status > 299) →
        ∃ msg, (listPrototypesHandler env request w).1 =
            ⟨some (NewToolResultError msg), none⟩ ∧
          msg = "Non-OK status " ++ fmtInt status ++ " from prototypes API: " ++ body ∧
          (fmtInt status).data <:+: msg.data ∧ body.data <:+: msg.data)) ∧
    (GetString request "id" "" ≠ "" →
      (env.httpGet w.net (base ++ "/" ++ GetString request "id" "")).1
        = .response status body →
      (IsStatusFailure (getPrototypeDetailHandler env request w).1 ↔
        (status < 200 ∨ status > 299)) ∧
      ((status < 200 ∨ status > 299) →
        ∃ msg, (getPrototypeDetailHandler env request w).1 =
            ⟨some (NewToolResultError msg), none⟩ ∧
          msg = "Non-OK status " ++ fmtInt status ++ " from detail API: " ++ body ∧
          (fmtInt status).data <:+: msg.data ∧ body.data <:+: msg.data)) ∧
    (GetString request "id" "" = "" → GetString request "name" "" ≠ "" →
      ∀ r w1, resolvePrototypeIDByName env (GetString request "name" "") w = (.ok r, w1) →
      (env.httpGet w1.net (base ++ "/" ++ r)).1 = .response status body →
      (IsStatusFailure (getPrototypeDetailHandler env request w).1 ↔
        (status < 200 ∨ status > 299)) ∧
      ((status < 200 ∨ status > 299) →
        ∃ msg, (getPrototypeDetailHandler env request w).1 =
            ⟨some (NewToolResultError msg), none⟩ ∧
          msg = "Non-OK status " ++ fmtInt status ++ " from detail API: " ++ body ∧
          (fmtInt status).data <:+: msg.data ∧ body.data <:+: msg.data)) ∧
    ((env.httpGet w.net base).1 = .response status body →
      (IsResolverStatusFailure (resolvePrototypeIDByName env name w).1 ↔
        (status < 200 ∨ status > 299)) ∧
      ((status < 200 ∨ status > 299) →
        ∃ msg, (resolvePrototypeIDByName env name w).1 = .error msg ∧
          msg = "non-OK status " ++ fmtInt status ++ " from prototypes API: " ++ body ∧
          (fmtInt status).data <:+: msg.data ∧ body.data <:+: msg.data)) := by
  refine ⟨fun hget => ?_, fun hid hget => ?_, fun hid hname r w1 hres hget => ?_,
    fun hget => ?_⟩
  · obtain ⟨hiff, hres⟩ := list_status_check env request w status body hget
    exact ⟨hiff, fun hr => ⟨_, hres hr, rfl,
      status_message_contains "Non-OK status " status " from prototypes API: " body⟩⟩
  · have h1 : getPrototypeDetailHandler env request w =
        fetchDetail env (GetString request "id" "") w := by
      simp [getPrototypeDetailHandler, hid]
    rw [h1]
    obtain ⟨hiff, hres⟩ :=
      detail_status_check env (GetString request "id" "") w status body hget
    exact ⟨hiff, fun hr => ⟨_, hres hr, rfl,
      status_message_contains "Non-OK status " status " from detail API: " body⟩⟩
  · have h1 : getPrototypeDetailHandler env request w = fetchDetail env r w1 := by
      simp [getPrototypeDetailHandler, hid, hname, hres]
    rw [h1]
    obtain ⟨hiff, hres⟩ := detail_status_check env r w1 status body hget
    exact ⟨hiff, fun hr => ⟨_, hres hr, rfl,
      status_message_contains "Non-OK status " status " from detail API: " body⟩⟩
  · obtain ⟨hiff, hres⟩ := resolve_status_check env name w status body hget
    exact ⟨hiff, fun hr => ⟨_, hres hr, rfl,
      status_message_contains "non-OK status " status " from prototypes API: " body⟩⟩

/-- Witness for C8: status 500 with body `internal error` at the listing handler, at the
detail request for the supplied id `p1`, and at the resolver; status 300 at the detail
request that follows the resolution of the name `login`. -/
theorem status_check_at_fetch_sites_witness :
    (listPrototypesHandler (mockEnv [] []) (detailRequest "p1" "")
        (freshWorld [(listURL, .response 500 "internal error"),
          (base ++ "/" ++ "p1", .response 500 "internal error"),
          (base, .response 500 "internal error")])).1 =
      ⟨some (NewToolResultError "Non-OK status 500 from prototypes API: internal error"),
        none⟩ ∧
    (getPrototypeDetailHandler (mockEnv [] []) (detailRequest "p1" "")
        (freshWorld [(listURL, .response 500 "internal error"),
          (base ++ "/" ++ "p1", .response 500 "internal error"),
          (base, .response 500 "internal error")])).1 =
      ⟨some (NewToolResultError "Non-OK status 500 from detail API: internal error"), none⟩ ∧
    (resolvePrototypeIDByName (mockEnv [] []) "login"
        (freshWorld [(listURL, .response 500 "internal error"),
          (base ++ "/" ++ "p1", .response 500 "internal error"),
          (base, .response 500 "internal error")])).1 =
      .error "non-OK status 500 from prototypes API: internal error" ∧
    (getPrototypeDetailHandler (mockEnv [(loginBody, ⟨[loginItem]⟩)] [])
        (detailRequest "" "login")
        (freshWorld [(base, .response 200 loginBody),
          (base ++ "/" ++ "p1", .response 300 "moved")])).1 =
      ⟨some (NewToolResultError "Non-OK status 300 from detail API: moved"), none⟩ := by
  have h := status_check_at_fetch_sites (mockEnv [] []) (detailRequest "p1" "") "login"
    (freshWorld [(listURL, .response 500 "internal error"),
      (base ++ "/" ++ "p1", .response 500 "internal error"),
      (base, .response 500 "internal error")]) 500 "internal error"
  obtain ⟨m1, h1, hm1, _, _⟩ := (h.1 (by decide)).2 (by decide)
  obtain ⟨m2, h2, hm2, _, _⟩ := (h.2.1 (by decide) (by decide)).2 (by decide)
  obtain ⟨m3, h3, hm3, _, _⟩ := (h.2.2.2 (by decide)).2 (by decide)
  obtain ⟨m4, h4, hm4, _, _⟩ :=
    ((status_check_at_fetch_sites (mockEnv [(loginBody, ⟨[loginItem]⟩)] [])
      (detailRequest "" "login") "login"
      (freshWorld [(base, .response 200 loginBody),
        (base ++ "/" ++ "p1", .response 300 "moved")]) 300 "moved").2.2.1
      (by decide) (by decide) "p1"
      ⟨[(base, .response 200 loginBody), (base ++ "/" ++ "p1", .response 300 "moved")],
        [base]⟩
      (by decide) (by decide)).2 (by decide)
  subst hm1 hm2 hm3 hm4
  exact ⟨by rw [h1]; decide, by rw [h2]; decide, by rw [h3]; decide, by rw [h4]; decide⟩

/-! ## Errors never reach the dispatch layer -/

theorem fetchDetail_returns_result {σ : Type} (env : Env σ) (id : String) (w : World σ) :
    ∃ r, (fetchDetail env id w).1 = ⟨some r, none⟩ := by
  unfold fetchDetail fetch
  cases h : (env.httpGet w.net (detailURL id)).1 with
  | getFailed e => simp [h]
  | readFailed st e => simp [h]
  | response status body =>
    by_cases hr : status < 200 ∨ status > 299
    · simp [h, hr]
    · cases hd : env.unmarshalDetail body with
      | error e => exact ⟨NewToolResultError ("Error parsing detail JSON: " ++ e),
          by simp [h, hr, hd]⟩
      | ok envelop =>
        exact ⟨NewToolResultText (env.marshalDetail (projectDetail envelop)),
          by simp [h, hr, hd]⟩

theorem hello_outcomes (quote : String → String) (request : CallToolRequest) :
    (∀ s, request.arguments.lookup "name" = some (Json.str s) →
      helloHandler quote request =
        ⟨some { Text := "¡Hola, " ++ s ++ "! 👋", IsError := false }, none⟩) ∧
    (request.arguments.lookup "name" = none →
      helloHandler quote request =
        ⟨some { Text := "required argument " ++ quote "name" ++ " not found",
                IsError := true }, none⟩) ∧
    (∀ v, request.arguments.lookup "name" = some v → (∀ s, v ≠ Json.str s) →
      helloHandler quote request =
        ⟨some { Text := "argument " ++ quote "name" ++ " is not a string",
                IsError := true }, none⟩) := by
  refine ⟨?_, ?_, ?_⟩
  · intro s hs
    simp [helloHandler, RequireString, hs, NewToolResultText]
  · intro hl
    simp [helloHandler, RequireString, hl, NewToolResultError]
  · intro v hl hv
    cases v with
    | str s => exact absurd rfl (hv s)
    | null => simp [helloHandler, RequireString, hl, NewToolResultError]
    | bool x => simp [helloHandler, RequireString, hl, NewToolResultError]
    | num x => simp [helloHandler, RequireString, hl, NewToolResultError]
    | arr x => simp [helloHandler, RequireString, hl, NewToolResultError]
    | obj x => simp [helloHandler, RequireString, hl, NewToolResultError]

theorem list_outcomes {σ : Type} (env : Env σ) (request : CallToolRequest) (w : World σ) :
    (∀ e, (env.httpGet w.net listURL).1 = .getFailed e →
      (listPrototypesHandler env request w).1 =
        ⟨some { Text := "Error calling prototypes API: " ++ e, IsError := true }, none⟩) ∧
    (∀ st e, (env.httpGet w.net listURL).1 = .readFailed st e →
      (listPrototypesHandler env request w).1 =
        ⟨some { Text := "Error reading prototypes response: " ++ e, IsError := true }, none⟩) ∧
    (∀ st b, (env.httpGet w.net listURL).1 = .response st b → (st < 200 ∨ st > 299) →
      (listPrototypesHandler env request w).1 =
        ⟨some { Text := "Non-OK status " ++ fmtInt st ++ " from prototypes API: " ++ b,
                IsError := true }, none⟩) ∧
    (∀ st b e, (env.httpGet w.net listURL).1 = .response st b → 200 ≤ st → st ≤ 299 →
      env.unmarshalListing b = .error e →
      (listPrototypesHandler env request w).1 =
        ⟨some { Text := "Error parsing prototypes JSON: " ++ e, IsError := true }, none⟩) ∧
    (∀ st b data, (env.httpGet w.net listURL).1 = .response st b → 200 ≤ st → st ≤ 299 →
      env.unmarshalListing b = .ok data →
      (listPrototypesHandler env request w).1 =
        ⟨some { Text := env.marshalSummaries (projectSummaries data.Results),
                IsError := false }, none⟩) := by
  refine ⟨?_, ?_, ?_, ?_, ?_⟩
  · intro e h
    simp [listPrototypesHandler, fetch, h, NewToolResultError]
  · intro st e h
    simp [listPrototypesHandler, fetch, h, NewToolResultError]
  · intro st b h hr
    simp [listPrototypesHandler, fetch, h, hr, NewToolResultError]
  · intro st b e h hlo hhi hd
    have hr : ¬ (st < 200 ∨ st > 299) := by omega
    simp [listPrototypesHandler, fetch, h, hr, hd, NewToolResultError]
  · intro st b data h hlo hhi hd
    have hr : ¬ (st < 200 ∨ st > 299) := by omega
    simp [listPrototypesHandler, fetch, h, hr, hd, NewToolResultText]

theorem fetchDetail_outcomes {σ : Type} (env : Env σ) (id : String) (w : World σ) :
    (∀ e, (env.httpGet w.net (base ++ "/" ++ id)).1 = .getFailed e →
      (fetchDetail env id w).1 =
        ⟨some { Text := "Error calling prototype detail API: " ++ e, IsError := true },
          none⟩) ∧
    (∀ st e, (env.httpGet w.net (base ++ "/" ++ id)).1 = .readFailed st e →
      (fetchDetail env id w).1 =
        ⟨some { Text := "Error reading prototype detail response: " ++ e, IsError := true },
          none⟩) ∧
    (∀ st b, (env.httpGet w.net (base ++ "/" ++ id)).1 = .response st b →
      (st < 200 ∨ st > 299) →
      (fetchDetail env id w).1 =
        ⟨some { Text := "Non-OK status " ++ fmtInt st ++ " from detail API: " ++ b,
                IsError := true }, none⟩) ∧
    (∀ st b e, (env.httpGet w.net (base ++ "/" ++ id)).1 = .response st b → 200 ≤ st →
      st ≤ 299 → env.unmarshalDetail b = .error e →
      (fetchDetail env id w).1 =
        ⟨some { Text := "Error parsing detail JSON: " ++ e, IsError := true }, none⟩) ∧
    (∀ st b envelop, (env.httpGet w.net (base ++ "/" ++ id)).1 = .response st b → 200 ≤ st →
      st ≤ 299 → env.unmarshalDetail b = .ok envelop →
      (fetchDetail env id w).1 =
        ⟨some { Text := env.marshalDetail (projectDetail envelop), IsError := false },
          none⟩) := by
  have hu : detailURL id = base ++ "/" ++ id := rfl
  refine ⟨?_, ?_, ?_, ?_, ?_⟩
  · intro e h
    simp [fetchDetail, fetch, hu, h, NewToolResultError]
  · intro st e h
    simp [fetchDetail, fetch, hu, h, NewToolResultError]
  · intro st b h hr
    simp [fetchDetail, fetch, hu, h, hr, NewToolResultError]
  · intro st b e h hlo hhi hd
    have hr : ¬ (st < 200 ∨ st > 299) := by omega
    simp [fetchDetail, fetch, hu, h, hr, hd, NewToolResultError]
  · intro st b envelop h hlo hhi hd
    have hr : ¬ (st < 200 ∨ st > 299) := by omega
    simp [fetchDetail, fetch, hu, h, hr, hd, NewToolResultText]

theorem list_returns_result {σ : Type} (env : Env σ) (request : CallToolRequest)
    (w : World σ) : ∃ r, (listPrototypesHandler env request w).1 = ⟨some r, none⟩ := by
  unfold listPrototypesHandler fetch
  cases h : (env.httpGet w.net listURL).1 with
  | getFailed e => simp [h]
  | readFailed st e => simp [h]
  | response status body =>
    by_cases hr : status < 200 ∨ status > 299
    · simp [h, hr]
    · cases hd : env.unmarshalListing body with
      | error e => exact ⟨NewToolResultError ("Error parsing prototypes JSON: " ++ e),
          by simp [h, hr, hd]⟩
      | ok data =>
        exact ⟨NewToolResultText (env.marshalSummaries (projectSummaries data.Results)),
          by simp [h, hr, hd]⟩

theorem detail_returns_result {σ : Type} (env : Env σ) (request : CallToolRequest)
    (w : World σ) : ∃ r, (getPrototypeDetailHandler env request w).1 = ⟨some r, none⟩ := by
  unfold getPrototypeDetailHandler
  by_cases hid : GetString request "id" "" = ""
  · by_cases hname : GetString request "name" "" = ""
    · simp [hid, hname]
    · rcases hres : resolvePrototypeIDByName env (GetString request "name" "") w
        with ⟨res, w1⟩
      cases res with
      | error e => exact ⟨NewToolResultError e, by simp [hid, hname, hres]⟩
      | ok r =>
        obtain ⟨x, hx⟩ := fetchDetail_returns_result env r w1
        exact ⟨x, by simp [hid, hname, hres, hx]⟩
  · obtain ⟨x, hx⟩ := fetchDetail_returns_result env (GetString request "id" "") w
    exact ⟨x, by simp [hid, hx]⟩

/-- C9: each of the three handlers, on every request and every behaviour of the network
and of the decoders, returns a nil Go error together with a non-nil tool result, and that
result is an error result (`IsError` set, the failure text as its text) on every failure
and a text result (`IsError` clear) on every success.
`helloHandler`: the greeting when `name` is a string argument, else the error of
`RequireString` (argument absent, or not a string). `listPrototypesHandler`: transport failure, body read failure, non-2xx
status and malformed JSON are error results, a decoded listing is a text result.
`getPrototypeDetailHandler`: missing parameters and every resolver failure are error
results; at the detail request, reached with the supplied id or with the resolved one,
the same five outcomes as for the listing. -/
theorem handlers_never_raise {σ : Type} (env : Env σ) (request : CallToolRequest)
    (w : World σ) :
    ((∃ r, helloHandler env.quote request = ⟨some r, none⟩) ∧
      (∀ s, request.arguments.lookup "name" = some (Json.str s) →
        helloHandler env.quote request =
          ⟨some { Text := "¡Hola, " ++ s ++ "! 👋", IsError := false }, none⟩) ∧
      (request.arguments.lookup "name" = none →
        helloHandler env.quote request =
          ⟨some { Text := "required argument " ++ env.quote "name" ++ " not found",
                  IsError := true }, none⟩) ∧
      (∀ v, request.arguments.lookup "name" = some v → (∀ s, v ≠ Json.str s) →
        helloHandler env.quote request =
          ⟨some { Text := "argument " ++ env.quote "name" ++ " is not a string",
                  IsError := true }, none⟩)) ∧
    ((∃ r, (listPrototypesHandler env request w).1 = ⟨some r, none⟩) ∧
      (∀ e, (env.httpGet w.net listURL).1 = .getFailed e →
        (listPrototypesHandler env request w).1 =
          ⟨some { Text := "Error calling prototypes API: " ++ e, IsError := true }, none⟩) ∧
      (∀ st e, (env.httpGet w.net listURL).1 = .readFailed st e →
        (listPrototypesHandler env request w).1 =
          ⟨some { Text := "Error reading prototypes response: " ++ e, IsError := true },
            none⟩) ∧
      (∀ st b, (env.httpGet w.net listURL).1 = .response st b → (st < 200 ∨ st > 299) →
        (listPrototypesHandler env request w).1 =
          ⟨some { Text := "Non-OK status " ++ fmtInt st ++ " from prototypes API: " ++ b,
                  IsError := true }, none⟩) ∧
      (∀ st b e, (env.httpGet w.net listURL).1 = .response st b → 200 ≤ st → st ≤ 299 →
        env.unmarshalListing b = .error e →
        (listPrototypesHandler env request w).1 =
          ⟨some { Text := "Error parsing prototypes JSON: " ++ e, IsError := true }, none⟩) ∧
      (∀ st b data, (env.httpGet w.net listURL).1 = .response st b → 200 ≤ st → st ≤ 299 →
        env.unmarshalListing b = .ok data →
        (listPrototypesHandler env request w).1 =
          ⟨some { Text := env.marshalSummaries (projectSummaries data.Results),
                  IsError := false }, none⟩)) ∧
    ((∃ r, (getPrototypeDetailHandler env request w).1 = ⟨some r, none⟩) ∧
      (GetString request "id" "" = "" → GetString request "name" "" = "" →
        (getPrototypeDetailHandler env request w).1 =
          ⟨some { Text := "Provide either 'id' or 'name'.", IsError := true }, none⟩) ∧
      (GetString request "id" "" = "" → GetString request "name" "" ≠ "" →
        ∀ e, (resolvePrototypeIDByName env (GetString request "name" "") w).1 = .error e →
        (getPrototypeDetailHandler env request w).1 =
          ⟨some { Text := e, IsError := true }, none⟩) ∧
      (∀ x w1,
        ((GetString request "id" "" ≠ "" ∧ x = GetString request "id" "" ∧ w1 = w) ∨
         (GetString request "id" "" = "" ∧ GetString request "name" "" ≠ "" ∧
           resolvePrototypeIDByName env (GetString request "name" "") w = (.ok x, w1))) →
        (∀ e, (env.httpGet w1.net (base ++ "/" ++ x)).1 = .getFailed e →
          (getPrototypeDetailHandler env request w).1 =
            ⟨some { Text := "Error calling prototype detail API: " ++ e, IsError := true },
              none⟩) ∧
        (∀ st e, (env.httpGet w1.net (base ++ "/" ++ x)).1 = .readFailed st e →
          (getPrototypeDetailHandler env request w).1 =
            ⟨some { Text := "Error reading prototype detail response: " ++ e,
                    IsError := true }, none⟩) ∧
        (∀ st b, (env.httpGet w1.net (base ++ "/" ++ x)).1 = .response st b →
          (st < 200 ∨ st > 299) →
          (getPrototypeDetailHandler env request w).1 =
            ⟨some { Text := "Non-OK status " ++ fmtInt st ++ " from detail API: " ++ b,
                    IsError := true }, none⟩) ∧
        (∀ st b e, (env.httpGet w1.net (base ++ "/" ++ x)).1 = .response st b → 200 ≤ st →
          st ≤ 299 → env.unmarshalDetail b = .error e →
          (getPrototypeDetailHandler env request w).1 =
            ⟨some { Text := "Error parsing detail JSON: " ++ e, IsError := true }, none⟩) ∧
        (∀ st b envelop, (env.httpGet w1.net (base ++ "/" ++ x)).1 = .response st b →
          200 ≤ st → st ≤ 299 → env.unmarshalDetail b = .ok envelop →
          (getPrototypeDetailHandler env request w).1 =
            ⟨some { Text := env.marshalDetail (projectDetail envelop), IsError := false },
              none⟩))) := by
  refine ⟨⟨?_, hello_outcomes env.quote request⟩,
    ⟨list_returns_result env request w, list_outcomes env request w⟩,
    ⟨detail_returns_result env request w, ?_, ?_, ?_⟩⟩
  · unfold helloHandler
    cases h : RequireString env.quote request "name" with
    | error e => exact ⟨_, rfl⟩
    | ok name => exact ⟨_, rfl⟩
  · intro hid hname
    simp [getPrototypeDetailHandler, hid, hname, NewToolResultError]
  · intro hid hname e he
    rcases hres : resolvePrototypeIDByName env (GetString request "name" "") w
      with ⟨res, w1⟩
    rw [hres] at he
    simp only at he
    subst he
    simp [getPrototypeDetailHandler, hid, hname, hres, NewToolResultError]
  · intro x w1 hreach
    have h1 : getPrototypeDetailHandler env request w = fetchDetail env x w1 := by
      rcases hreach with ⟨hid, hx, hw⟩ | ⟨hid, hname, hres⟩
      · subst hx hw
        simp [getPrototypeDetailHandler, hid]
      · simp [getPrototypeDetailHandler, hid, hname, hres]
    rw [h1]
    exact fetchDetail_outcomes env x w1

/-- Witness for C9: without a `name` argument `helloHandler` returns an error result; a
refused connection makes the listing handler return an error result; an unknown name makes
the detail handler return the resolver's message as an error result; a detail body that
does not decode is an error result; the name `login` with a detail body that decodes
gives a text result. -/
theorem handlers_never_raise_witness :
    helloHandler plainQuote ⟨[]⟩ =
      ⟨some { Text := "required argument \"name\" not found", IsError := true }, none⟩ ∧
    helloHandler plainQuote ⟨[("name", Json.str "Ana")]⟩ =
      ⟨some { Text := "¡Hola, Ana! 👋", IsError := false }, none⟩ ∧
    (listPrototypesHandler (mockEnv [] []) ⟨[]⟩ (freshWorld [])).1 =
      ⟨some { Text := "Error calling prototypes API: connection refused", IsError := true },
        none⟩ ∧
    (getPrototypeDetailHandler (mockEnv [(loginBody, ⟨[loginItem]⟩)] [])
        (detailRequest "" "logout") (freshWorld [(base, .response 200 loginBody)])).1 =
      ⟨some { Text := "prototype with name \"logout\" not found. Available: [Login]",
              IsError := true }, none⟩ ∧
    (getPrototypeDetailHandler (mockEnv [] []) (detailRequest "p1" "")
        (freshWorld [(base ++ "/" ++ "p1", .response 200 "not json")])).1 =
      ⟨some { Text := "Error parsing detail JSON: unexpected end of JSON input",
              IsError := true }, none⟩ ∧
    (getPrototypeDetailHandler (mockEnv [(loginBody, ⟨[loginItem]⟩)] [("D", loginDetail)])
        (detailRequest "" "login")
        (freshWorld [(base, .response 200 loginBody),
          (base ++ "/" ++ "p1", .response 200 "D")])).1 =
      ⟨some { Text := "p1,Login,POST,/login", IsError := false }, none⟩ := by
  refine ⟨?_, ?_, ?_, ?_, ?_, ?_⟩
  · exact (handlers_never_raise (mockEnv [] []) ⟨[]⟩ (freshWorld [])).1.2.2.1 rfl
  · exact (handlers_never_raise (mockEnv [] []) ⟨[("name", Json.str "Ana")]⟩
      (freshWorld [])).1.2.1 "Ana" rfl
  · exact (handlers_never_raise (mockEnv [] []) ⟨[]⟩ (freshWorld [])).2.1.2.1
      "connection refused" (by decide)
  · exact (handlers_never_raise (mockEnv [(loginBody, ⟨[loginItem]⟩)] [])
      (detailRequest "" "logout") (freshWorld [(base, .response 200 loginBody)])).2.2.2.2.1
      (by decide) (by decide) _ (by decide)
  · exact ((handlers_never_raise (mockEnv [] []) (detailRequest "p1" "")
      (freshWorld [(base ++ "/" ++ "p1", .response 200 "not json")])).2.2.2.2.2
      "p1" (freshWorld [(base ++ "/" ++ "p1", .response 200 "not json")])
      (Or.inl ⟨by decide, by decide, rfl⟩)).2.2.2.1 200 "not json"
      "unexpected end of JSON input" (by decide) (by decide) (by decide) rfl
  · exact ((handlers_never_raise
      (mockEnv [(loginBody, ⟨[loginItem]⟩)] [("D", loginDetail)]) (detailRequest "" "login")
      (freshWorld [(base, .response 200 loginBody),
        (base ++ "/" ++ "p1", .response 200 "D")])).2.2.2.2.2
      "p1" ⟨[(base, .response 200 loginBody), (base ++ "/" ++ "p1", .response 200 "D")],
        [base]⟩
      (Or.inr ⟨by decide, by decide, by decide⟩)).2.2.2.2 200 "D" loginDetail
      (by decide) (by decide) (by decide) rfl

/-! ## The id bound into the detail URL -/

theorem scanResults_ok_mem (tbl : Char → Char) (target : String) (items : List mockyItem) :
    ∀ candidates r, scanResults tbl target items candidates = .ok r →
      ∃ it ∈ items, it.ID = r ∧ ToLower tbl it.Name = target := by
  induction items with
  | nil => intro c r h; simp [scanResults] at h
  | cons a rest ih =>
    intro c r h
    by_cases ha : ToLower tbl a.Name = target
    · simp [scanResults, ha] at h
      exact ⟨a, List.mem_cons_self _ _, h, ha⟩
    · simp [scanResults, ha] at h
      obtain ⟨it, hit, hid, hm⟩ := ih _ r h
      exact ⟨it, List.mem_cons_of_mem _ hit, hid, hm⟩

theorem resolve_ok_inv {σ : Type} (env : Env σ) (name : String) (w : World σ) (r : String)
    (h : (resolvePrototypeIDByName env name w).1 = .ok r) :
    ∃ data, ListingDecodes env base w data ∧
      ∃ it ∈ data.Results, it.ID = r ∧ nameMatches env.lowerTable name it := by
  unfold resolvePrototypeIDByName fetch at h
  cases hget : (env.httpGet w.net base).1 with
  | getFailed e => simp [hget] at h
  | readFailed st e => simp [hget] at h
  | response status body =>
    by_cases hr : status < 200 ∨ status > 299
    · simp [hget, hr] at h
    · cases hd : env.unmarshalListing body with
      | error e => simp [hget, hr, hd] at h
      | ok data =>
        simp only [hget, hr, hd, if_false] at h
        unfold resolveIn at h
        cases hs : scanResults env.lowerTable (TrimSpace (ToLower env.lowerTable name))
            data.Results [] with
        | error cands => simp [hs] at h
        | ok x =>
          simp [hs] at h
          subst h
          refine ⟨data, ⟨status, body, hget, by omega, by omega, hd⟩, ?_⟩
          exact scanResults_ok_mem _ _ _ _ _ hs

/-- C10, as stated, fails: the name `ghost` resolves to a listing item whose id is empty,
and the detail request is issued with the empty id, to `base/`. -/
theorem detail_empty_resolved_id_counterexample :
    (getPrototypeDetailHandler
        (mockEnv [("L", ⟨[{ ID := "", Name := "ghost", Request := ⟨"GET", "/g"⟩ }]⟩)] [])
        (detailRequest "" "ghost") (freshWorld [(base, .response 200 "L")])).2.trace
      = [base, base ++ "/" ++ ""] := by
  decide

/-- C10, amended: whenever the detail handler issues the detail request, the id bound into
its URL is the supplied id when that is non-empty (one request, to `base/id`), and
otherwise the id field, unchanged, of the earliest listing item that matches the name
(two requests, the listing and then `base/` followed by that id); so the bound id is
non-empty exactly when the supplied id is used or that item's id is non-empty. No detail
request is issued when both parameters are empty or when resolution fails. -/
theorem detail_fetch_id_source {σ : Type} (env : Env σ) (request : CallToolRequest)
    (w : World σ) :
    (GetString request "id" "" ≠ "" →
      (getPrototypeDetailHandler env request w).2.trace =
        w.trace ++ [base ++ "/" ++ GetString request "id" ""]) ∧
    (GetString request "id" "" = "" → GetString request "name" "" = "" →
      (getPrototypeDetailHandler env request w).2.trace = w.trace) ∧
    (GetString request "id" "" = "" → GetString request "name" "" ≠ "" →
      ∀ e, (resolvePrototypeIDByName env (GetString request "name" "") w).1 = .error e →
      (getPrototypeDetailHandler env request w).2.trace = w.trace ++ [base]) ∧
    (GetString request "id" "" = "" → GetString request "name" "" ≠ "" →
      ∀ x, (resolvePrototypeIDByName env (GetString request "name" "") w).1 = .ok x →
      (getPrototypeDetailHandler env request w).2.trace =
        w.trace ++ [base, base ++ "/" ++ x] ∧
      ∃ data i it, ListingDecodes env base w data ∧ data.Results[i]? = some it ∧
        nameMatches env.lowerTable (GetString request "name" "") it ∧
        (∀ (j : Nat) (y : mockyItem), j < i → data.Results[j]? = some y →
          ¬ nameMatches env.lowerTable (GetString request "name" "") y) ∧
        x = it.ID ∧ (x ≠ "" ↔ it.ID ≠ "")) := by
  refine ⟨?_, ?_, ?_, ?_⟩
  · intro hid
    have h1 : getPrototypeDetailHandler env request w =
        fetchDetail env (GetString request "id" "") w := by
      simp [getPrototypeDetailHandler, hid]
    rw [h1, fetchDetail_trace]
    rfl
  · intro hid hname
    simp [getPrototypeDetailHandler, hid, hname]
  · intro hid hname e he
    have ht := resolve_trace env (GetString request "name" "") w
    rcases hres : resolvePrototypeIDByName env (GetString request "name" "") w
      with ⟨res, w1⟩
    rw [hres] at ht he
    simp only at ht he
    subst he
    simp [getPrototypeDetailHandler, hid, hname, hres, ht]
  · intro hid hname x hx
    have ht := resolve_trace env (GetString request "name" "") w
    obtain ⟨data, hdec, hex⟩ := resolve_ok_inv env (GetString request "name" "") w x hx
    obtain ⟨i, it, hi, hm, hfirst, hok⟩ :=
      resolveIn_first_match_index env (GetString request "name" "") data
        (by obtain ⟨it, hit, _, hm⟩ := hex; exact ⟨it, hit, hm⟩)
    have hxid : x = it.ID := by
      rw [resolve_of_decodes env (GetString request "name" "") w data hdec] at hx
      simp only at hx
      rw [hok] at hx
      injection hx with hx
      exact hx.symm
    rcases hres : resolvePrototypeIDByName env (GetString request "name" "") w
      with ⟨res, w1⟩
    rw [hres] at ht hx
    simp only at ht hx
    subst hx
    refine ⟨?_, data, i, it, hdec, hi, hm, hfirst, hxid, by rw [hxid]⟩
    have h1 : getPrototypeDetailHandler env request w = fetchDetail env x w1 := by
      simp [getPrototypeDetailHandler, hid, hname, hres]
    rw [h1, fetchDetail_trace, ht]
    simp [detailURL]

/-- Witness for C10: the listing holds `Login` (p1) and an item `ghost` with an empty id.
The name `login` binds `p1`; with the supplied id `p1` the listing is not consulted at
all. -/
theorem detail_fetch_id_source_witness :
    (getPrototypeDetailHandler
        (mockEnv [("L", ⟨[loginItem, { ID := "", Name := "ghost", Request := ⟨"GET", "/g"⟩ }]⟩)]
          [])
        (detailRequest "" "login") (freshWorld [(base, .response 200 "L")])).2.trace
      = [base, base ++ "/" ++ "p1"] ∧
    (getPrototypeDetailHandler
        (mockEnv [("L", ⟨[loginItem, { ID := "", Name := "ghost", Request := ⟨"GET", "/g"⟩ }]⟩)]
          [])
        (detailRequest "p1" "ghost") (freshWorld [(base, .response 200 "L")])).2.trace
      = [base ++ "/" ++ "p1"] :=
  ⟨((detail_fetch_id_source
      (mockEnv [("L", ⟨[loginItem, { ID := "", Name := "ghost", Request := ⟨"GET", "/g"⟩ }]⟩)]
        [])
      (detailRequest "" "login") (freshWorld [(base, .response 200 "L")])).2.2.2
      (by decide) (by decide) "p1" (by decide)).1,
   (detail_fetch_id_source
      (mockEnv [("L", ⟨[loginItem, { ID := "", Name := "ghost", Request := ⟨"GET", "/g"⟩ }]⟩)]
        [])
      (detailRequest "p1" "ghost") (freshWorld [(base, .response 200 "L")])).1 (by decide)⟩

end Mocky
